import Mathlib

/-!
Shallow embedding of `src/flight_price_monitor.py` (offer normalization,
deduplication, filtering, price-trend and alert evaluation, and the
per-date summary formatter), together with theorems settling the claims
about that code.

Modelling conventions:
* Python floats carrying prices are modelled as `ℚ`.
* JSON fields whose absence raises a `KeyError`/`IndexError` in the code are
  modelled as `Option`/possibly-empty lists; the uncaught Python exception
  escaping the `for offer in all_offers` loop is modelled by the `Except`
  monad threaded through the fold.
* The sqlite lookup `get_previous_price` is an external collaborator and is
  passed in as a function `hist : String → String → String → Option ℚ`
  (flight number, departure date, cabin ↦ most recent stored price, `none`
  when there is no row).  Note that the Python function returns the stored
  column value itself, so a stored price of `0` is returned as `some 0`,
  not as `none`.
* Console printing and the `total_flights_found` counter (used only for a
  print) are I/O and are not modelled.
-/

namespace FlightMonitor

/-- Configuration constant `MAX_PRICE_FILTER = 700.00` (line 28 of the source). -/
def MAX_PRICE_FILTER : ℚ := 700

/-- Configuration constant `MAX_PRICE_ALERT = 1200.00` (line 29). -/
def MAX_PRICE_ALERT : ℚ := 1200

/-- Configuration constant `MIN_SEATS_ALERT = 3` (line 30). -/
def MIN_SEATS_ALERT : ℕ := 3

/-- The static `AIRLINE_NAMES` carrier-code → name table (lines 38–67). -/
def AIRLINE_NAMES : List (String × String) :=
  [("TK", "Turkish Airlines"), ("TH", "Thai Airways"), ("SQ", "Singapore Airlines"),
   ("TR", "Scoot"), ("3K", "Jetstar Asia"), ("JQ", "Jetstar Airways"), ("QF", "Qantas"),
   ("EK", "Emirates"), ("QR", "Qatar Airways"), ("CX", "Cathay Pacific"),
   ("MH", "Malaysia Airlines"), ("AK", "AirAsia"), ("D7", "AirAsia X"),
   ("FD", "Thai AirAsia"), ("GA", "Garuda Indonesia"), ("TG", "Thai Airways International"),
   ("VA", "Virgin Australia"), ("NZ", "Air New Zealand"), ("CI", "China Airlines"),
   ("BR", "EVA Air"), ("NH", "All Nippon Airways"), ("JL", "Japan Airlines"),
   ("OZ", "Asiana Airlines"), ("KE", "Korean Air"), ("VN", "Vietnam Airlines"),
   ("BL", "Jetstar Pacific"), ("PR", "Philippine Airlines"), ("5J", "Cebu Pacific")]

/-- `get_airline_name` (lines 69–71): dictionary lookup with the code itself as default. -/
def getAirlineName (code : String) : String :=
  match AIRLINE_NAMES.find? (fun p => p.1 == code) with
  | some p => p.2
  | none => code

/-- One segment of an itinerary, with exactly the JSON fields the loop reads.
`carrierCode` is read with `.get("carrierCode", "")`, `number` with a raising
`segment['number']`, `aircraftCode` with `.get("aircraft", \x7b\x7d).get("code", "N/A")`,
and the departure/arrival `["at"]` accesses raise when absent. -/
structure Segment where
  carrierCode : Option String
  number : Option String
  aircraftCode : Option String
  departureAt : Option String
  arrivalAt : Option String
deriving DecidableEq

/-- One itinerary: a segment list (`[0]` indexing raises on empty) and an
optional `duration` read with `.get("duration", "N/A")`. -/
structure Itinerary where
  segments : List Segment
  duration : Option String
deriving DecidableEq

/-- One fare-details-by-segment entry: `cabin` and `class` both read with
`.get(_, "N/A")`. -/
structure FareDetail where
  cabin : Option String
  fareClass : Option String
deriving DecidableEq

/-- One traveler pricing: `fareDetailsBySegment` read with `.get(_, [])`,
so an absent list is identified with the empty list. -/
structure TravelerPricing where
  fareDetailsBySegment : List FareDetail
deriving DecidableEq

/-- The `price` block: `total` (raising access, then `float(...)`) and
`currency` (raising access). -/
structure PriceBlock where
  total : Option ℚ
  currency : Option String
deriving DecidableEq

/-- One raw provider offer, with the fields `fetch_flights_for_date` reads.
`itineraries` is a list (an absent or empty list both make the `[0]` access
raise, so they are identified); `price` is `none` when the `price` block is
absent; `travelerPricings` presence is tested with `"travelerPricings" in offer
and len(...) > 0`, so absence is identified with the empty list;
`numberOfBookableSeats` is read with `.get(_, 0)`. -/
structure RawOffer where
  itineraries : List Itinerary
  price : Option PriceBlock
  travelerPricings : List TravelerPricing
  numberOfBookableSeats : Option ℕ
deriving DecidableEq

/-- The flat record appended to `flights_data` (lines 271–288). -/
structure FlightRecord where
  flight_number : String
  carrier_code : String
  airline_name : String
  price : ℚ
  prev_price : Option ℚ
  price_diff : ℚ
  seats : ℕ
  currency : String
  fare_class : String
  aircraft : String
  cabin : String
  departure_time : String
  arrival_time : String
  flight_duration : String
  stops : ℕ
  departure_date : String
deriving DecidableEq

/-- The dedup key string of a produced record. -/
def recordKey (r : FlightRecord) : String := r.flight_number ++ "_" ++ r.cabin

/-- History lookup abstracting `get_previous_price` (lines 73–87):
flight number, departure date, cabin ↦ most recent stored price. -/
def Hist : Type := String → String → String → Option ℚ

/-- The first itinerary and its first segment,
`offer["itineraries"][0]["segments"][0]` (line 211); `none` models the
raising access. -/
def firstSegment? (o : RawOffer) : Option (Itinerary × Segment) :=
  match o.itineraries with
  | [] => none
  | itin :: _ =>
    match itin.segments with
    | [] => none
    | seg :: _ => some (itin, seg)

/-- Cabin extraction (lines 216–220): first traveler pricing's first
fare-detail `cabin`, defaulting to `"N/A"` at every absence. -/
def offerCabin (o : RawOffer) : String :=
  match o.travelerPricings with
  | tp :: _ =>
    match tp.fareDetailsBySegment with
    | fd :: _ => fd.cabin.getD "N/A"
    | [] => "N/A"
  | [] => "N/A"

/-- Fare class extraction (lines 250–254), same shape as the cabin extraction. -/
def offerFareClass (o : RawOffer) : String :=
  match o.travelerPricings with
  | tp :: _ =>
    match tp.fareDetailsBySegment with
    | fd :: _ => fd.fareClass.getD "N/A"
    | [] => "N/A"
  | [] => "N/A"

/-- Flight number, `f"\x7bcarrier_code\x7d\x7bsegment['number']\x7d"` (lines 212–213);
`none` when the first segment or its `number` is missing. -/
def offerFlightNumber? (o : RawOffer) : Option String :=
  match firstSegment? o with
  | some (_, seg) => seg.number.map (fun n => seg.carrierCode.getD "" ++ n)
  | none => none

/-- The `(flight_number, cabin)` pair of an offer, when extractable. -/
def offerPairKey? (o : RawOffer) : Option (String × String) :=
  (offerFlightNumber? o).map (fun fn => (fn, offerCabin o))

/-- The dedup key string `f"\x7bflight_no\x7d_\x7bcabin\x7d"` of line 234, when
extractable. -/
def offerKey? (o : RawOffer) : Option String :=
  (offerPairKey? o).map (fun pk => pk.1 ++ "_" ++ pk.2)

/-- The price total, `float(offer["price"]["total"])` (line 239). -/
def offerPrice? (o : RawOffer) : Option ℚ :=
  o.price.bind (fun pb => pb.total)

/-- Eligibility (lines 222–229): an offer is kept past the carrier/cabin rule
iff it is a JQ offer or its cabin is not BUSINESS, mirroring
`if not is_jq and is_business: continue`.  Defined as `false` for offers
whose first segment is missing (those raise before the check is reached). -/
def offerEligible (o : RawOffer) : Bool :=
  match firstSegment? o with
  | some (_, seg) => seg.carrierCode.getD "" == "JQ" || !(offerCabin o == "BUSINESS")
  | none => false

/-- Price-change computation (lines 266–269): `price_diff = 0` then
`if prev_price: price_diff = price - prev_price`.  Python truthiness makes
both `None` and `0.0` fall through to `0`. -/
def computePriceDiff (price : ℚ) (prev : Option ℚ) : ℚ :=
  match prev with
  | some p => if p ≠ 0 then price - p else 0
  | none => 0

/-- The eligibility drop condition of line 228, `not is_jq and is_business`:
the `continue` fires iff the carrier is not JQ and the cabin is BUSINESS. -/
def eligibilityDrops (carrier cab : String) : Prop :=
  ¬carrier = "JQ" ∧ cab = "BUSINESS"

instance (carrier cab : String) : Decidable (eligibilityDrops carrier cab) :=
  inferInstanceAs (Decidable (¬carrier = "JQ" ∧ cab = "BUSINESS"))

/-- The price-ceiling drop condition of line 244,
`not is_business and price > MAX_PRICE_FILTER`: the `continue` fires iff the
cabin is not BUSINESS and the price exceeds the ceiling. -/
def priceFilterDrops (cab : String) (price : ℚ) : Prop :=
  ¬cab = "BUSINESS" ∧ MAX_PRICE_FILTER < price

instance (cab : String) (price : ℚ) : Decidable (priceFilterDrops cab price) :=
  inferInstanceAs (Decidable (¬cab = "BUSINESS" ∧ MAX_PRICE_FILTER < price))

/-- The record appended at lines 271–288, given the already-extracted parts. -/
def buildRecord (hist : Hist) (date : String) (itin : Itinerary) (seg : Segment)
    (flightNo cabin : String) (price : ℚ) (curr dep arr : String)
    (o : RawOffer) : FlightRecord :=
  let prev := hist flightNo date cabin
  { flight_number := flightNo
    carrier_code := seg.carrierCode.getD ""
    airline_name := getAirlineName (seg.carrierCode.getD "")
    price := price
    prev_price := prev
    price_diff := computePriceDiff price prev
    seats := o.numberOfBookableSeats.getD 0
    currency := curr
    fare_class := offerFareClass o
    aircraft := seg.aircraftCode.getD "N/A"
    cabin := cabin
    departure_time := dep
    arrival_time := arr
    flight_duration := itin.duration.getD "N/A"
    stops := itin.segments.length - 1
    departure_date := date }

/-- The record an offer contributes when it survives every per-offer check
(well-formedness, eligibility, price ceiling), independent of the `seen` set.
`none` covers both the malformed cases and the filtered cases. -/
def recordOf (hist : Hist) (date : String) (o : RawOffer) : Option FlightRecord :=
  match firstSegment? o with
  | none => none
  | some (itin, seg) =>
    match seg.number with
    | none => none
    | some num =>
      let carrier := seg.carrierCode.getD ""
      let flightNo := carrier ++ num
      let cabin := offerCabin o
      if eligibilityDrops carrier cabin then none
      else
        match offerPrice? o with
        | none => none
        | some price =>
          if priceFilterDrops cabin price then none
          else
            match o.price.bind (fun pb => pb.currency), seg.departureAt, seg.arrivalAt with
            | some curr, some dep, some arr =>
              some (buildRecord hist date itin seg flightNo cabin price curr dep arr o)
            | _, _, _ => none

/-- One iteration of the `for offer in all_offers` loop (lines 210–288),
threading the `seen_flights` set. `.error ()` models an uncaught
`KeyError`/`IndexError` on a required field; `.ok (none, seen)` models a
`continue`; `.ok (some r, seen)` models an append to `flights_data`.
The checks happen in source order: segment/number extraction, the
carrier/cabin eligibility `continue`, the `seen_flights` dedup `continue`
(which inserts the key *before* the price is read), the price read, the
price-ceiling `continue`, then the remaining raising field reads. -/
def stepOffer (hist : Hist) (date : String) (seen : List String) (o : RawOffer) :
    Except Unit (Option FlightRecord × List String) :=
  match firstSegment? o with
  | none => .error ()
  | some (itin, seg) =>
    match seg.number with
    | none => .error ()
    | some num =>
      let carrier := seg.carrierCode.getD ""
      let flightNo := carrier ++ num
      let cabin := offerCabin o
      if eligibilityDrops carrier cabin then .ok (none, seen)
      else
        let key := flightNo ++ "_" ++ cabin
        if key ∈ seen then .ok (none, seen)
        else
          match offerPrice? o with
          | none => .error ()
          | some price =>
            if priceFilterDrops cabin price then .ok (none, key :: seen)
            else
              match o.price.bind (fun pb => pb.currency), seg.departureAt, seg.arrivalAt with
              | some curr, some dep, some arr =>
                .ok (some (buildRecord hist date itin seg flightNo cabin price curr dep arr o),
                     key :: seen)
              | _, _, _ => .error ()

/-- The whole loop over `all_offers`, producing `flights_data` (in append
order) and the final `seen_flights` set; the first uncaught per-offer
exception aborts the remainder. -/
def processOffers (hist : Hist) (date : String) :
    List RawOffer → List String → Except Unit (List FlightRecord × List String)
  | [], seen => .ok ([], seen)
  | o :: os, seen =>
    match stepOffer hist date seen o with
    | .error e => .error e
    | .ok (none, seen') => processOffers hist date os seen'
    | .ok (some r, seen') =>
      match processOffers hist date os seen' with
      | .error e => .error e
      | .ok (rs, seenF) => .ok (r :: rs, seenF)

/-- Comparison by the `price` key, the `key=lambda x: x["price"]` of line 290. -/
def byPriceLE (a b : FlightRecord) : Prop := a.price ≤ b.price

instance : DecidableRel byPriceLE :=
  fun a b => inferInstanceAs (Decidable (a.price ≤ b.price))

instance : IsTotal FlightRecord byPriceLE := ⟨fun a b => le_total a.price b.price⟩

instance : IsTrans FlightRecord byPriceLE := ⟨fun _ _ _ => le_trans⟩

/-- `flights_data.sort(key=lambda x: x["price"])` (line 290): Python's sort is
a stable sort by the price key. A stable sort's output is uniquely determined
by the comparison key and the input order, so the stable
`List.insertionSort` is extensionally the same function. -/
def sortByPrice (rs : List FlightRecord) : List FlightRecord :=
  rs.insertionSort byPriceLE

/-- `fetch_flights_for_date` from the first loop iteration on (lines 206–296):
process the raw offers with an empty `seen_flights`/`flights_data`, then sort
ascending by price.  An uncaught exception inside the loop escapes the whole
function (there is no per-offer handler). -/
def fetchFlightsForDate (hist : Hist) (date : String) (offers : List RawOffer) :
    Except Unit (List FlightRecord) :=
  match processOffers hist date offers [] with
  | .error e => .error e
  | .ok (rs, _) => .ok (sortByPrice rs)

/-- The `price_analysis` dictionary produced by `get_price_analysis`
(lines 161–171): quartile label, min/max/median and an availability flag. -/
structure PriceAnalysis where
  quartile : String
  min : ℚ
  max : ℚ
  median : ℚ
  available : Bool
deriving DecidableEq

/-- Python's `'=' * 90` header rule. -/
def eq90 : String := String.mk (List.replicate 90 '=')

/-- Python's `'-' * 90` separator rule. -/
def dash90 : String := String.mk (List.replicate 90 '-')

/-- Fixed two-decimal rendering used for the `:.2f` format specifiers.
Rounds to the nearest cent; the tie-breaking convention is immaterial to
every property proved here (the constants rendered are exact). -/
def fmt2 (q : ℚ) : String :=
  let n : ℤ := round (q * 100)
  let sign := if n < 0 then "-" else ""
  let m := n.natAbs
  let cents := m % 100
  sign ++ toString (m / 100) ++ "." ++
    (if cents < 10 then "0" ++ toString cents else toString cents)

/-- The `PRICE ALERT` condition of line 363: `flight["price"] <= MAX_PRICE_ALERT`. -/
def priceAlertFires (f : FlightRecord) : Bool :=
  decide (f.price ≤ MAX_PRICE_ALERT)

/-- The `LOW SEATS` condition of line 367: `flight["seats"] <= MIN_SEATS_ALERT`. -/
def lowSeatsFires (f : FlightRecord) : Bool :=
  decide (f.seats ≤ MIN_SEATS_ALERT)

/-- The per-flight alert badge string built at lines 362–370. -/
def alertIndicator (f : FlightRecord) : String :=
  (if priceAlertFires f then "💰 PRICE ALERT " else "") ++
    (if lowSeatsFires f then "💺 LOW SEATS " else "")

/-- The `alerts_triggered` list built inside the formatter loop
(lines 359–370): a flight is appended (at most once, tested by value
equality) when either alert condition holds for it. -/
def alertsTriggered (flights : List FlightRecord) : List FlightRecord :=
  flights.foldl
    (fun acc f =>
      let acc1 := if priceAlertFires f ∧ f ∉ acc then acc ++ [f] else acc
      if lowSeatsFires f ∧ f ∉ acc1 then acc1 ++ [f] else acc1)
    []

/-- The `BELOW MEDIAN` badge of lines 372–375. -/
def historicalIndicator (pa : PriceAnalysis) (f : FlightRecord) : String :=
  if pa.available ∧ f.price ≤ pa.median then "🌟 BELOW MEDIAN " else ""

/-- The stops text of line 377. -/
def stopsText (f : FlightRecord) : String :=
  if f.stops = 0 then "Direct" else toString f.stops ++ " stop(s)"

/-- The trend badge of lines 379–383: only a strictly positive or strictly
negative `price_diff` produces a trend annotation. -/
def trendIndicator (f : FlightRecord) : String :=
  if 0 < f.price_diff then " 📈 UP $" ++ fmt2 f.price_diff
  else if f.price_diff < 0 then " 📉 DOWN $" ++ fmt2 (|f.price_diff|)
  else ""

/-- One enumerated flight block of the summary (lines 385–392). -/
def flightEntry (pa : PriceAnalysis) (idx : ℕ) (f : FlightRecord) : String :=
  "\n" ++ toString idx ++ ". " ++ f.airline_name ++ " - " ++ f.flight_number ++
    " (" ++ f.cabin ++ ") " ++ historicalIndicator pa f ++ alertIndicator f ++
    "\n   Price: $" ++ fmt2 f.price ++ " " ++ f.currency ++ trendIndicator f ++
    " | Seats Available: " ++ toString f.seats ++ " | Stops: " ++ stopsText f ++
    "\n   Fare Class: " ++ f.fare_class ++ " | Aircraft: " ++ f.aircraft ++
    "\n   Departure: " ++ f.departure_time ++ " → Arrival: " ++ f.arrival_time ++
    "\n   Duration: " ++ f.flight_duration ++
    "\n" ++ dash90 ++ "\n"

/-- The enumerated flight blocks, numbered from `idx` (Python's
`enumerate(flights_data, 1)` starts at 1). -/
def flightEntriesFrom (pa : PriceAnalysis) : ℕ → List FlightRecord → String
  | _, [] => ""
  | idx, f :: fs => flightEntry pa idx f ++ flightEntriesFrom pa (idx + 1) fs

/-- The block returned when `flights_data` is empty (lines 333–342). -/
def noFlightsBlock (date : String) : String :=
  "\n" ++ eq90 ++ "\nDATE: " ++ date ++ "\n" ++ eq90 ++
    "\n\nNO FLIGHTS FOUND UNDER $" ++ fmt2 MAX_PRICE_FILTER ++
    "\n\nNo flights found matching the price criteria for this date.\n"

/-- `format_date_summary` (lines 332–397). -/
def formatDateSummary (date : String) (flights : List FlightRecord)
    (pa : PriceAnalysis) : String :=
  if flights = [] then noFlightsBlock date
  else
    let header := "\n" ++ eq90 ++ "\nDATE: " ++ date ++ "\n" ++ eq90 ++ "\n"
    let histBlock :=
      if pa.available then
        "\n📊 HISTORICAL PRICE ANALYSIS:\n   Price Range: $" ++ fmt2 pa.min ++
          " - $" ++ fmt2 pa.max ++ " AUD (Median: $" ++ fmt2 pa.median ++
          ")\n   Current Quartile: " ++ pa.quartile ++ "\n"
      else ""
    let found :=
      "\nFound " ++ toString flights.length ++ " flight option(s) under $" ++
        fmt2 MAX_PRICE_FILTER ++ ":\n\n"
    let alerts := alertsTriggered flights
    let alertLine :=
      if alerts = [] then ""
      else "\n🚨 " ++ toString alerts.length ++ " ALERT(S) for " ++ date ++ "\n"
    header ++ histBlock ++ found ++ flightEntriesFrom pa 1 flights ++ alertLine

/-! ### Concrete sample inputs used in counterexamples and witnesses -/

/-- History stub: no stored prior price for any key. -/
def histNone : Hist := fun _ _ _ => none

/-- History stub: every key has a most recent stored price of `0`. -/
def histZero : Hist := fun _ _ _ => some 0

/-- History stub: every key has a most recent stored price of `500`. -/
def histFive : Hist := fun _ _ _ => some 500

/-- A fully populated segment for carrier `c` and flight number part `n`. -/
def mkSeg (c : Option String) (n : String) : Segment :=
  { carrierCode := c, number := some n, aircraftCode := some "359",
    departureAt := some "2026-02-15T10:05:00", arrivalAt := some "2026-02-15T20:45:00" }

/-- A one-segment itinerary around `s`. -/
def mkItin (s : Segment) : Itinerary :=
  { segments := [s], duration := some "PT7H40M" }

/-- A traveler-pricing block carrying one fare detail with the given cabin. -/
def mkTP (cab : String) : TravelerPricing :=
  { fareDetailsBySegment := [{ cabin := some cab, fareClass := some "Y" }] }

/-- A fully populated offer: carrier `c`, number part `n`, cabin `cab`,
price `p`, `seats` bookable seats. -/
def mkOffer (c : Option String) (n cab : String) (p : ℚ) (seats : ℕ) : RawOffer :=
  { itineraries := [mkItin (mkSeg c n)],
    price := some { total := some p, currency := some "AUD" },
    travelerPricings := [mkTP cab],
    numberOfBookableSeats := some seats }

/-- A BUSINESS offer whose segment has no `carrierCode` key (the code
defaults it to `""`), with number part `"JQ9"`: its flight number is
`"JQ9"` and it is dropped by the eligibility rule. -/
def oBizNoCarrier : RawOffer := mkOffer none "JQ9" "BUSINESS" 3000 5

/-- A JQ BUSINESS offer with number part `"9"`: flight number `"JQ9"`,
same `(flight_number, cabin)` key as `oBizNoCarrier`, price `2000`. -/
def oBizJQ : RawOffer := mkOffer (some "JQ") "9" "BUSINESS" 2000 5

/-- A non-JQ offer with no traveler pricing at all, hence cabin `"N/A"`. -/
def oCabinNA : RawOffer :=
  { itineraries := [mkItin (mkSeg (some "SQ") "11")],
    price := some { total := some 100, currency := some "AUD" },
    travelerPricings := [],
    numberOfBookableSeats := some 4 }

/-- A malformed ECONOMY offer: its `price` block is missing entirely, so
`offer["price"]["total"]` raises. -/
def oBadPrice : RawOffer :=
  { itineraries := [mkItin (mkSeg (some "SQ") "22")],
    price := none,
    travelerPricings := [mkTP "ECONOMY"],
    numberOfBookableSeats := some 4 }

/-- A well-formed cheap ECONOMY offer. -/
def oGood : RawOffer := mkOffer (some "TR") "33" "ECONOMY" 300 2

/-- A well-formed ECONOMY offer priced above the ceiling. -/
def oOver : RawOffer := mkOffer (some "SQ") "44" "ECONOMY" 800 6

/-- A well-formed ECONOMY offer with the same key as `oOver`, priced below
the ceiling. -/
def oUnder : RawOffer := mkOffer (some "SQ") "44" "ECONOMY" 650 6

/-- A well-formed ECONOMY offer priced at `450`. -/
def oMid : RawOffer := mkOffer (some "TH") "168" "ECONOMY" 450 2

/-- A second well-formed ECONOMY offer priced at `450` (ties with `oMid`). -/
def oMid2 : RawOffer := mkOffer (some "QF") "36" "ECONOMY" 450 9

/-- A well-formed ECONOMY offer whose `numberOfBookableSeats` key is absent. -/
def oNoSeats : RawOffer :=
  { itineraries := [mkItin (mkSeg (some "SQ") "55")],
    price := some { total := some 200, currency := some "AUD" },
    travelerPricings := [mkTP "ECONOMY"],
    numberOfBookableSeats := none }

/-- The fixed departure date used by the concrete examples. -/
def d0 : String := "2026-02-15"

/-- The record that `mkOffer c n cab p seats` contributes under history `hist`. -/
def recFor (hist : Hist) (c n cab : String) (p : ℚ) (seats : ℕ) : FlightRecord :=
  buildRecord hist d0 (mkItin (mkSeg (some c) n)) (mkSeg (some c) n) (c ++ n) cab p
    "AUD" "2026-02-15T10:05:00" "2026-02-15T20:45:00" (mkOffer (some c) n cab p seats)

/-- The record `oGood` contributes. -/
def recGood : FlightRecord := recFor histNone "TR" "33" "ECONOMY" 300 2

/-- The record `oBizJQ` contributes. -/
def recBizJQ : FlightRecord := recFor histNone "JQ" "9" "BUSINESS" 2000 5

/-- The record `oCabinNA` contributes. -/
def recNA : FlightRecord :=
  buildRecord histNone d0 (mkItin (mkSeg (some "SQ") "11")) (mkSeg (some "SQ") "11")
    "SQ11" "N/A" 100 "AUD" "2026-02-15T10:05:00" "2026-02-15T20:45:00" oCabinNA

/-- The record `oMid` contributes when every key has stored prior price 0. -/
def recMidZero : FlightRecord := recFor histZero "TH" "168" "ECONOMY" 450 2

/-- The record `oMid` contributes when every key has stored prior price 500. -/
def recMidFive : FlightRecord := recFor histFive "TH" "168" "ECONOMY" 450 2

/-- The record `oMid` contributes with no history. -/
def recMid : FlightRecord := recFor histNone "TH" "168" "ECONOMY" 450 2

/-- The record `oMid2` contributes with no history. -/
def recMid2 : FlightRecord := recFor histNone "QF" "36" "ECONOMY" 450 9

/-- The record `oUnder` contributes with no history. -/
def recUnder : FlightRecord := recFor histNone "SQ" "44" "ECONOMY" 650 6

/-- A record used to exercise the alert predicates. -/
def rSample : FlightRecord :=
  { flight_number := "TH168", carrier_code := "TH", airline_name := "Thai Airways",
    price := 650, prev_price := none, price_diff := 0, seats := 2,
    currency := "AUD", fare_class := "Y", aircraft := "359", cabin := "ECONOMY",
    departure_time := "2026-02-15T10:05:00", arrival_time := "2026-02-15T20:45:00",
    flight_duration := "PT7H40M", stops := 0, departure_date := "2026-02-15" }

/-! ### Structural lemmas about the per-offer step and the loop -/

theorem stepOffer_seen_subset {hist : Hist} {date : String} {seen : List String}
    {o : RawOffer} {p : Option FlightRecord} {seen' : List String}
    (h : stepOffer hist date seen o = .ok (p, seen')) : seen ⊆ seen' := by
  unfold stepOffer at h
  rcases hseg : firstSegment? o with _ | ⟨itin, seg⟩ <;> rw [hseg] at h <;> (try dsimp only at h)
  · exact absurd h (by simp)
  rcases hnum : seg.number with _ | num <;> rw [hnum] at h <;> (try dsimp only at h)
  · exact absurd h (by simp)
  by_cases helig : eligibilityDrops (seg.carrierCode.getD "") (offerCabin o)
  · rw [if_pos helig] at h
    simp only [Except.ok.injEq, Prod.mk.injEq] at h
    rw [← h.2]
    exact List.Subset.refl _
  · rw [if_neg helig] at h
    by_cases hseen : seg.carrierCode.getD "" ++ num ++ "_" ++ offerCabin o ∈ seen
    · rw [if_pos hseen] at h
      simp only [Except.ok.injEq, Prod.mk.injEq] at h
      rw [← h.2]
      exact List.Subset.refl _
    rw [if_neg hseen] at h
    rcases hprice : offerPrice? o with _ | price <;> rw [hprice] at h <;> (try dsimp only at h)
    · exact absurd h (by simp)
    by_cases hfilter : priceFilterDrops (offerCabin o) price
    · rw [if_pos hfilter] at h
      simp only [Except.ok.injEq, Prod.mk.injEq] at h
      rw [← h.2]
      exact List.subset_cons_self _ _
    rw [if_neg hfilter] at h
    rcases hcurr : o.price.bind (fun pb => pb.currency) with _ | curr <;>
      rw [hcurr] at h <;> (try dsimp only at h)
    · exact absurd h (by simp)
    rcases hdep : seg.departureAt with _ | dep <;> rw [hdep] at h <;> (try dsimp only at h)
    · exact absurd h (by simp)
    rcases harr : seg.arrivalAt with _ | arr <;> rw [harr] at h <;> (try dsimp only at h)
    · exact absurd h (by simp)
    simp only [Except.ok.injEq, Prod.mk.injEq] at h
    rw [← h.2]
    exact List.subset_cons_self _ _

theorem stepOffer_ok_some {hist : Hist} {date : String} {seen : List String}
    {o : RawOffer} {r : FlightRecord} {seen' : List String}
    (h : stepOffer hist date seen o = .ok (some r, seen')) :
    offerEligible o = true ∧
      offerPairKey? o = some (r.flight_number, r.cabin) ∧
      recordOf hist date o = some r ∧
      recordKey r ∉ seen ∧ seen' = recordKey r :: seen := by
  unfold stepOffer at h
  rcases hseg : firstSegment? o with _ | ⟨itin, seg⟩ <;> rw [hseg] at h <;> (try dsimp only at h)
  · exact absurd h (by simp)
  rcases hnum : seg.number with _ | num <;> rw [hnum] at h <;> (try dsimp only at h)
  · exact absurd h (by simp)
  by_cases helig : eligibilityDrops (seg.carrierCode.getD "") (offerCabin o)
  · rw [if_pos helig] at h
    exact absurd h (by simp)
  rw [if_neg helig] at h
  by_cases hseen : seg.carrierCode.getD "" ++ num ++ "_" ++ offerCabin o ∈ seen
  · rw [if_pos hseen] at h
    exact absurd h (by simp)
  rw [if_neg hseen] at h
  rcases hprice : offerPrice? o with _ | price <;> rw [hprice] at h <;> (try dsimp only at h)
  · exact absurd h (by simp)
  by_cases hfilter : priceFilterDrops (offerCabin o) price
  · rw [if_pos hfilter] at h
    exact absurd h (by simp)
  rw [if_neg hfilter] at h
  rcases hcurr : o.price.bind (fun pb => pb.currency) with _ | curr <;>
    rw [hcurr] at h <;> (try dsimp only at h)
  · exact absurd h (by simp)
  rcases hdep : seg.departureAt with _ | dep <;> rw [hdep] at h <;> (try dsimp only at h)
  · exact absurd h (by simp)
  rcases harr : seg.arrivalAt with _ | arr <;> rw [harr] at h <;> (try dsimp only at h)
  · exact absurd h (by simp)
  simp only [Except.ok.injEq, Prod.mk.injEq, Option.some.injEq] at h
  obtain ⟨h1, h2⟩ := h
  subst h1
  subst h2
  refine ⟨?_, ?_, ?_, ?_, ?_⟩
  · have hor : seg.carrierCode.getD "" = "JQ" ∨ ¬offerCabin o = "BUSINESS" := by
      unfold eligibilityDrops at helig
      tauto
    simp only [offerEligible, hseg, Bool.or_eq_true, beq_iff_eq, Bool.not_eq_true',
      beq_eq_false_iff_ne]
    exact hor
  · simp [offerPairKey?, offerFlightNumber?, hseg, hnum, buildRecord]
  · simp only [recordOf, hseg, hnum, hprice, hcurr, hdep, harr, if_neg helig, if_neg hfilter]
  · simpa [recordKey, buildRecord] using hseen
  · simp [recordKey, buildRecord]

theorem stepOffer_adds_key {hist : Hist} {date : String} {seen : List String}
    {o : RawOffer} {k : String} {p : Option FlightRecord} {seen' : List String}
    (he : offerEligible o = true) (hk : offerKey? o = some k)
    (h : stepOffer hist date seen o = .ok (p, seen')) : k ∈ seen' := by
  unfold stepOffer at h
  rcases hseg : firstSegment? o with _ | ⟨itin, seg⟩ <;> rw [hseg] at h <;> (try dsimp only at h)
  · exact absurd h (by simp)
  rcases hnum : seg.number with _ | num <;> rw [hnum] at h <;> (try dsimp only at h)
  · exact absurd h (by simp)
  simp only [offerKey?, offerPairKey?, offerFlightNumber?, hseg, hnum, Option.map_some',
    Option.some.injEq] at hk
  by_cases helig : eligibilityDrops (seg.carrierCode.getD "") (offerCabin o)
  · simp only [offerEligible, hseg, Bool.or_eq_true, beq_iff_eq, Bool.not_eq_true',
      beq_eq_false_iff_ne] at he
    unfold eligibilityDrops at helig
    tauto
  rw [if_neg helig] at h
  by_cases hseen : seg.carrierCode.getD "" ++ num ++ "_" ++ offerCabin o ∈ seen
  · rw [if_pos hseen] at h
    simp only [Except.ok.injEq, Prod.mk.injEq] at h
    rw [← h.2, ← hk]
    exact hseen
  rw [if_neg hseen] at h
  rcases hprice : offerPrice? o with _ | price <;> rw [hprice] at h <;> (try dsimp only at h)
  · exact absurd h (by simp)
  by_cases hfilter : priceFilterDrops (offerCabin o) price
  · rw [if_pos hfilter] at h
    simp only [Except.ok.injEq, Prod.mk.injEq] at h
    rw [← h.2, ← hk]
    exact List.mem_cons_self _ _
  rw [if_neg hfilter] at h
  rcases hcurr : o.price.bind (fun pb => pb.currency) with _ | curr <;>
    rw [hcurr] at h <;> (try dsimp only at h)
  · exact absurd h (by simp)
  rcases hdep : seg.departureAt with _ | dep <;> rw [hdep] at h <;> (try dsimp only at h)
  · exact absurd h (by simp)
  rcases harr : seg.arrivalAt with _ | arr <;> rw [harr] at h <;> (try dsimp only at h)
  · exact absurd h (by simp)
  simp only [Except.ok.injEq, Prod.mk.injEq] at h
  rw [← h.2, ← hk]
  exact List.mem_cons_self _ _

theorem processOffers_nil {hist : Hist} {date : String} {seen : List String} :
    processOffers hist date [] seen = .ok ([], seen) := rfl

theorem processOffers_cons_ok {hist : Hist} {date : String} {o : RawOffer}
    {os : List RawOffer} {seen : List String} {out : List FlightRecord}
    {seenF : List String}
    (h : processOffers hist date (o :: os) seen = .ok (out, seenF)) :
    ∃ p seen' rs, stepOffer hist date seen o = .ok (p, seen') ∧
      processOffers hist date os seen' = .ok (rs, seenF) ∧
      out = p.elim rs (fun r => r :: rs) := by
  unfold processOffers at h
  cases hstep : stepOffer hist date seen o with
  | error e => rw [hstep] at h; exact absurd h (by simp)
  | ok q =>
    obtain ⟨p, seen'⟩ := q
    rw [hstep] at h
    cases p with
    | none => exact ⟨none, seen', out, rfl, h, rfl⟩
    | some r0 =>
      dsimp only at h
      cases hrec : processOffers hist date os seen' with
      | error e => rw [hrec] at h; exact absurd h (by simp)
      | ok q2 =>
        obtain ⟨rs, sF⟩ := q2
        rw [hrec] at h
        simp only [Except.ok.injEq, Prod.mk.injEq] at h
        obtain ⟨h1, h2⟩ := h
        subst h2
        exact ⟨some r0, seen', rs, rfl, hrec, h1.symm⟩

theorem processOffers_seen_subset {hist : Hist} {date : String} :
    ∀ {offers : List RawOffer} {seen : List String} {out : List FlightRecord}
      {seenF : List String},
      processOffers hist date offers seen = .ok (out, seenF) → seen ⊆ seenF := by
  intro offers
  induction offers with
  | nil =>
    intro seen out seenF h
    rw [processOffers_nil] at h
    simp only [Except.ok.injEq, Prod.mk.injEq] at h
    rw [← h.2]
    exact List.Subset.refl _
  | cons o os ih =>
    intro seen out seenF h
    obtain ⟨p, seen', rs, hstep, hrec, -⟩ := processOffers_cons_ok h
    exact (stepOffer_seen_subset hstep).trans (ih hrec)

theorem processOffers_keys_not_seen {hist : Hist} {date : String} :
    ∀ {offers : List RawOffer} {seen : List String} {out : List FlightRecord}
      {seenF : List String},
      processOffers hist date offers seen = .ok (out, seenF) →
      ∀ r ∈ out, recordKey r ∉ seen := by
  intro offers
  induction offers with
  | nil =>
    intro seen out seenF h r hr
    rw [processOffers_nil] at h
    simp only [Except.ok.injEq, Prod.mk.injEq] at h
    rw [← h.1] at hr
    exact absurd hr (List.not_mem_nil r)
  | cons o os ih =>
    intro seen out seenF h r hr
    obtain ⟨p, seen', rs, hstep, hrec, hout⟩ := processOffers_cons_ok h
    cases p with
    | none =>
      rw [hout] at hr
      intro hmem
      exact ih hrec r hr (stepOffer_seen_subset hstep hmem)
    | some r0 =>
      rw [hout] at hr
      rcases List.mem_cons.mp hr with rfl | hr'
      · exact (stepOffer_ok_some hstep).2.2.2.1
      · intro hmem
        exact ih hrec r hr' (stepOffer_seen_subset hstep hmem)

theorem processOffers_blocked {hist : Hist} {date : String} :
    ∀ {offers : List RawOffer} {seen : List String} {out : List FlightRecord}
      {seenF : List String} {k : String},
      processOffers hist date offers seen = .ok (out, seenF) → k ∈ seen →
      ∀ r ∈ out, recordKey r ≠ k := by
  intro offers seen out seenF k h hk r hr heq
  exact processOffers_keys_not_seen h r hr (by rw [heq]; exact hk)

theorem processOffers_pairwise_keys {hist : Hist} {date : String} :
    ∀ {offers : List RawOffer} {seen : List String} {out : List FlightRecord}
      {seenF : List String},
      processOffers hist date offers seen = .ok (out, seenF) →
      out.Pairwise (fun a b => recordKey a ≠ recordKey b) := by
  intro offers
  induction offers with
  | nil =>
    intro seen out seenF h
    rw [processOffers_nil] at h
    simp only [Except.ok.injEq, Prod.mk.injEq] at h
    rw [← h.1]
    exact List.Pairwise.nil
  | cons o os ih =>
    intro seen out seenF h
    obtain ⟨p, seen', rs, hstep, hrec, hout⟩ := processOffers_cons_ok h
    cases p with
    | none => rw [hout]; exact ih hrec
    | some r0 =>
      rw [hout]
      refine List.Pairwise.cons ?_ (ih hrec)
      intro r' hr' hkey
      obtain ⟨-, -, -, -, hseen'⟩ := stepOffer_ok_some hstep
      have hnot := processOffers_keys_not_seen hrec r' hr'
      rw [hseen'] at hnot
      rw [← hkey] at hnot
      exact hnot (List.mem_cons_self _ _)

theorem processOffers_append {hist : Hist} {date : String} :
    ∀ {xs ys : List RawOffer} {seen : List String} {out : List FlightRecord}
      {seenF : List String},
      processOffers hist date (xs ++ ys) seen = .ok (out, seenF) →
      ∃ out1 s1 out2, processOffers hist date xs seen = .ok (out1, s1) ∧
        processOffers hist date ys s1 = .ok (out2, seenF) ∧ out = out1 ++ out2 := by
  intro xs
  induction xs with
  | nil =>
    intro ys seen out seenF h
    exact ⟨[], seen, out, processOffers_nil, h, rfl⟩
  | cons o os ih =>
    intro ys seen out seenF h
    rw [List.cons_append] at h
    obtain ⟨p, seen', rs, hstep, hrec, hout⟩ := processOffers_cons_ok h
    obtain ⟨out1, s1, out2, h1, h2, h3⟩ := ih hrec
    cases p with
    | none =>
      refine ⟨out1, s1, out2, ?_, h2, by rw [hout]; exact h3⟩
      unfold processOffers
      rw [hstep]
      exact h1
    | some r0 =>
      refine ⟨r0 :: out1, s1, out2, ?_, h2, by rw [hout, h3]; rfl⟩
      unfold processOffers
      rw [hstep]
      dsimp only
      rw [h1]

theorem recordOf_spec {hist : Hist} {date : String} {o : RawOffer} {r : FlightRecord}
    (h : recordOf hist date o = some r) :
    ¬eligibilityDrops r.carrier_code r.cabin ∧
      ¬priceFilterDrops r.cabin r.price ∧
      r.prev_price = hist r.flight_number date r.cabin ∧
      r.price_diff = computePriceDiff r.price r.prev_price ∧
      r.departure_date = date := by
  unfold recordOf at h
  rcases hseg : firstSegment? o with _ | ⟨itin, seg⟩ <;> rw [hseg] at h <;> (try dsimp only at h)
  · exact absurd h (by simp)
  rcases hnum : seg.number with _ | num <;> rw [hnum] at h <;> (try dsimp only at h)
  · exact absurd h (by simp)
  by_cases helig : eligibilityDrops (seg.carrierCode.getD "") (offerCabin o)
  · rw [if_pos helig] at h
    exact absurd h (by simp)
  rw [if_neg helig] at h
  rcases hprice : offerPrice? o with _ | price <;> rw [hprice] at h <;> (try dsimp only at h)
  · exact absurd h (by simp)
  by_cases hfilter : priceFilterDrops (offerCabin o) price
  · rw [if_pos hfilter] at h
    exact absurd h (by simp)
  rw [if_neg hfilter] at h
  rcases hcurr : o.price.bind (fun pb => pb.currency) with _ | curr <;>
    rw [hcurr] at h <;> (try dsimp only at h)
  · exact absurd h (by simp)
  rcases hdep : seg.departureAt with _ | dep <;> rw [hdep] at h <;> (try dsimp only at h)
  · exact absurd h (by simp)
  rcases harr : seg.arrivalAt with _ | arr <;> rw [harr] at h <;> (try dsimp only at h)
  · exact absurd h (by simp)
  simp only [Option.some.injEq] at h
  subst h
  exact ⟨helig, hfilter, rfl, rfl, rfl⟩

theorem processOffers_first_eligible {hist : Hist} {date : String} :
    ∀ {offers : List RawOffer} {seen : List String} {out : List FlightRecord}
      {seenF : List String},
      processOffers hist date offers seen = .ok (out, seenF) →
      ∀ r ∈ out, ∃ l1 o l2, offers = l1 ++ o :: l2 ∧
        offerEligible o = true ∧
        offerPairKey? o = some (r.flight_number, r.cabin) ∧
        recordOf hist date o = some r ∧
        ∀ o' ∈ l1,
          ¬(offerEligible o' = true ∧ offerPairKey? o' = some (r.flight_number, r.cabin)) := by
  intro offers
  induction offers with
  | nil =>
    intro seen out seenF h r hr
    rw [processOffers_nil] at h
    simp only [Except.ok.injEq, Prod.mk.injEq] at h
    rw [← h.1] at hr
    exact absurd hr (List.not_mem_nil r)
  | cons o os ih =>
    intro seen out seenF h r hr
    obtain ⟨p, seen', rs, hstep, hrec, hout⟩ := processOffers_cons_ok h
    cases p with
    | none =>
      rw [hout] at hr
      obtain ⟨l1, o1, l2, hsplit, he1, hk1, hrec1, hfirst⟩ := ih hrec r hr
      refine ⟨o :: l1, o1, l2, by rw [hsplit]; rfl, he1, hk1, hrec1, ?_⟩
      rintro o' ho' ⟨he', hk'⟩
      rcases List.mem_cons.mp ho' with rfl | ho''
      · have hkstr : offerKey? o' = some (recordKey r) := by
          simp [offerKey?, hk', recordKey]
        have hmem := stepOffer_adds_key he' hkstr hstep
        exact processOffers_keys_not_seen hrec r hr hmem
      · exact hfirst o' ho'' ⟨he', hk'⟩
    | some r0 =>
      rw [hout] at hr
      rcases List.mem_cons.mp hr with rfl | hr'
      · obtain ⟨he, hk, hro, -, -⟩ := stepOffer_ok_some hstep
        exact ⟨[], o, os, rfl, he, hk, hro, by simp⟩
      · obtain ⟨l1, o1, l2, hsplit, he1, hk1, hrec1, hfirst⟩ := ih hrec r hr'
        refine ⟨o :: l1, o1, l2, by rw [hsplit]; rfl, he1, hk1, hrec1, ?_⟩
        rintro o' ho' ⟨he', hk'⟩
        rcases List.mem_cons.mp ho' with rfl | ho''
        · have hkstr : offerKey? o' = some (recordKey r) := by
            simp [offerKey?, hk', recordKey]
          have hmem := stepOffer_adds_key he' hkstr hstep
          exact processOffers_keys_not_seen hrec r hr' hmem
        · exact hfirst o' ho'' ⟨he', hk'⟩

theorem fetchFlightsForDate_ok {hist : Hist} {date : String} {offers : List RawOffer}
    {out : List FlightRecord} (h : fetchFlightsForDate hist date offers = .ok out) :
    ∃ rs seenF, processOffers hist date offers [] = .ok (rs, seenF) ∧
      out = sortByPrice rs := by
  unfold fetchFlightsForDate at h
  cases hp : processOffers hist date offers [] with
  | error e => rw [hp] at h; exact absurd h (by simp)
  | ok q =>
    obtain ⟨rs, sF⟩ := q
    rw [hp] at h
    simp only [Except.ok.injEq] at h
    exact ⟨rs, sF, rfl, h.symm⟩

theorem mem_sortByPrice {r : FlightRecord} {rs : List FlightRecord} :
    r ∈ sortByPrice rs ↔ r ∈ rs := List.mem_insertionSort byPriceLE

theorem offerPairKey_inv {o : RawOffer} {fn cb : String}
    (hk : offerPairKey? o = some (fn, cb)) :
    offerCabin o = cb ∧ ∃ itin seg num, firstSegment? o = some (itin, seg) ∧
      seg.number = some num ∧ seg.carrierCode.getD "" ++ num = fn := by
  unfold offerPairKey? offerFlightNumber? at hk
  rcases hseg : firstSegment? o with _ | ⟨itin, seg⟩ <;> rw [hseg] at hk <;>
    (try dsimp only at hk)
  · simp at hk
  rcases hnum : seg.number with _ | num <;> rw [hnum] at hk <;> (try dsimp only at hk)
  · simp at hk
  simp only [Option.map_some', Option.some.injEq, Prod.mk.injEq] at hk
  exact ⟨hk.2, itin, seg, num, rfl, hnum, hk.1⟩

theorem offerEligible_of_nonbusiness {o : RawOffer} {fn cb : String}
    (hk : offerPairKey? o = some (fn, cb)) (hcab : cb ≠ "BUSINESS") :
    offerEligible o = true := by
  obtain ⟨hcb, itin, seg, num, hseg, -, -⟩ := offerPairKey_inv hk
  unfold offerEligible
  rw [hseg]
  simp [hcb, hcab]

theorem recordOf_priceDropped {hist : Hist} {date : String} {o : RawOffer}
    {fn cb : String} {p : ℚ} (hk : offerPairKey? o = some (fn, cb))
    (hcab : cb ≠ "BUSINESS") (hprice : offerPrice? o = some p)
    (hover : MAX_PRICE_FILTER < p) : recordOf hist date o = none := by
  obtain ⟨hcb, itin, seg, num, hseg, hnum, -⟩ := offerPairKey_inv hk
  unfold recordOf
  rw [hseg]
  dsimp only
  rw [hnum]
  dsimp only
  by_cases helig : eligibilityDrops (seg.carrierCode.getD "") (offerCabin o)
  · rw [if_pos helig]
  · rw [if_neg helig, hprice]
    dsimp only
    have hpf : priceFilterDrops (offerCabin o) p := ⟨by rw [hcb]; exact hcab, hover⟩
    rw [if_pos hpf]

theorem processOffers_record_keys {hist : Hist} {date : String}
    {offers : List RawOffer} {seen : List String} {out : List FlightRecord}
    {seenF : List String} (h : processOffers hist date offers seen = .ok (out, seenF)) :
    ∀ r ∈ out, ∃ o ∈ offers, offerPairKey? o = some (r.flight_number, r.cabin) := by
  intro r hr
  obtain ⟨l1, o, l2, hsplit, -, hk, -, -⟩ := processOffers_first_eligible h r hr
  exact ⟨o, by rw [hsplit]; exact List.mem_append_right _ (List.mem_cons_self _ _), hk⟩

theorem sortByPrice_filter_eq (rs : List FlightRecord) (P : FlightRecord → Bool)
    (hP : ∀ a b, P a = true → P b = true → byPriceLE a b) :
    (sortByPrice rs).filter P = rs.filter P := by
  have hpw : (rs.filter P).Pairwise byPriceLE :=
    List.pairwise_of_forall_mem_list (fun a ha b hb =>
      hP a b (List.mem_filter.mp ha).2 (List.mem_filter.mp hb).2)
  have hsub2 : List.Sublist (rs.filter P) (sortByPrice rs) :=
    List.sublist_insertionSort hpw (List.filter_sublist rs)
  have hsub3 := hsub2.filter P
  rw [List.filter_eq_self.mpr (fun a ha => (List.mem_filter.mp ha).2)] at hsub3
  have hperm : List.Perm ((sortByPrice rs).filter P) (rs.filter P) :=
    (List.perm_insertionSort byPriceLE rs).filter P
  exact (hsub3.eq_of_length hperm.length_eq.symm).symm

/-! ### Claim theorems -/

/-- C2, counterexample: the claim says a non-JQ offer is kept only if its cabin
is ECONOMY, but the code only drops non-JQ offers whose cabin is BUSINESS.  An
SQ offer with no traveler-pricing block gets cabin `"N/A"` and is kept: it
appears in the output with a cabin that is not ECONOMY. -/
theorem C2_counterexample :
    fetchFlightsForDate histNone d0 [oCabinNA] = .ok [recNA] ∧
      recNA.carrier_code = "SQ" ∧ recNA.carrier_code ≠ "JQ" ∧
      recNA.cabin = "N/A" ∧ recNA.cabin ≠ "ECONOMY" :=
  ⟨rfl, rfl, by decide, rfl, by decide⟩

/-- C2, amended: an offer from a carrier other than JQ is dropped by the
eligibility rule exactly when its cabin is BUSINESS (so among the two cabins
the code requests, non-JQ carriers are restricted to ECONOMY, but non-BUSINESS
cabins such as `"N/A"` also pass); consequently no non-JQ record in any output
has the BUSINESS cabin, while JQ offers may contribute BUSINESS records. -/
theorem C2_eligibility {hist : Hist} {date : String} {offers : List RawOffer}
    {out : List FlightRecord} (h : fetchFlightsForDate hist date offers = .ok out) :
    (∀ r ∈ out, r.carrier_code ≠ "JQ" → r.cabin ≠ "BUSINESS") ∧
      ∀ carrier cab : String, carrier ≠ "JQ" → (eligibilityDrops carrier cab ↔ cab = "BUSINESS") := by
  obtain ⟨rs, seenF, hp, hout⟩ := fetchFlightsForDate_ok h
  refine ⟨?_, ?_⟩
  · intro r hr hcar
    rw [hout] at hr
    obtain ⟨l1, o, l2, -, -, -, hro, -⟩ :=
      processOffers_first_eligible hp r (mem_sortByPrice.mp hr)
    have hnd := (recordOf_spec hro).1
    unfold eligibilityDrops at hnd
    tauto
  · intro carrier cab hcar
    unfold eligibilityDrops
    tauto

/-- C2, witness for the amended claim at a concrete batch: the N/A-cabin SQ
record is in the output and indeed does not carry the BUSINESS cabin. -/
theorem C2_eligibility_witness :
    (∀ r ∈ [recNA], r.carrier_code ≠ "JQ" → r.cabin ≠ "BUSINESS") ∧
      ∀ carrier cab : String, carrier ≠ "JQ" → (eligibilityDrops carrier cab ↔ cab = "BUSINESS") :=
  C2_eligibility (show fetchFlightsForDate histNone d0 [oCabinNA] = .ok [recNA] from rfl)

/-- C3: an offer whose `price` block is missing makes the whole date's batch
abort (the uncaught exception escapes the loop, modelled as `.error ()`), and
the well-formed sibling offer in the same batch yields no record — although
that sibling alone would have produced one.  The code has no
`MalformedOfferError` and no per-offer handler, contradicting the claim that a
per-offer fault is skippable. -/
theorem C3_batch_abort :
    fetchFlightsForDate histNone d0 [oBadPrice, oGood] = .error () ∧
      fetchFlightsForDate histNone d0 [oGood] = .ok [recGood] ∧
      oBadPrice.price = none :=
  ⟨rfl, rfl, rfl⟩

/-- C4, counterexample: with a stored prior price of exactly 0 a prior
observation exists (`prev_price = some 0`), yet `price_diff` is `0`, not
`price − 0 = 450`, because the code truthiness-tests the prior; and with no
prior row `price_diff` is the number `0`, not null/absent. -/
theorem C4_counterexample :
    recordOf histZero d0 oMid = some recMidZero ∧
      recMidZero.prev_price = some 0 ∧
      recMidZero.price = 450 ∧
      recMidZero.price_diff = 0 ∧
      recMidZero.price_diff ≠ recMidZero.price - 0 ∧
      (recordOf histNone d0 oMid).map (fun r => r.prev_price) = some none ∧
      (recordOf histNone d0 oMid).map (fun r => r.price_diff) = some 0 := by
  refine ⟨rfl, rfl, rfl, rfl, ?_, rfl, rfl⟩
  have h1 : recMidZero.price_diff = 0 := rfl
  have h2 : recMidZero.price = 450 := rfl
  rw [h1, h2]
  norm_num

/-- C4, amended: `price_diff = price − previous_price` whenever a prior
observation exists and its value is nonzero; when no prior row exists, or the
stored prior price is exactly 0, `price_diff` is `0` (a present numeric zero,
not null) and no trend is reported. -/
theorem C4_price_delta {hist : Hist} {date : String} {o : RawOffer} {r : FlightRecord}
    (h : recordOf hist date o = some r) :
    (∀ p0 : ℚ, r.prev_price = some p0 → p0 ≠ 0 → r.price_diff = r.price - p0) ∧
      (r.prev_price = none → r.price_diff = 0 ∧ trendIndicator r = "") ∧
      (r.prev_price = some 0 → r.price_diff = 0 ∧ trendIndicator r = "") := by
  have hd := (recordOf_spec h).2.2.2.1
  refine ⟨?_, ?_, ?_⟩
  · intro p0 hp hp0
    rw [hd, hp]
    simp [computePriceDiff, hp0]
  · intro hp
    have h0 : r.price_diff = 0 := by rw [hd, hp]; rfl
    exact ⟨h0, by simp [trendIndicator, h0]⟩
  · intro hp
    have h0 : r.price_diff = 0 := by rw [hd, hp]; simp [computePriceDiff]
    exact ⟨h0, by simp [trendIndicator, h0]⟩

/-- C4, witness: a prior of 500 and a new price of 450 give
`price_diff = 450 − 500 = −50`. -/
theorem C4_price_delta_witness :
    recMidFive.prev_price = some 500 ∧ (500 : ℚ) ≠ 0 ∧
      recMidFive.price_diff = recMidFive.price - 500 ∧
      recMidFive.price = 450 ∧ recMidFive.price_diff = -50 := by
  refine ⟨rfl, by norm_num,
    (C4_price_delta (show recordOf histFive d0 oMid = some recMidFive from rfl)).1 500 rfl
      (by norm_num), rfl, ?_⟩
  have h : recMidFive.price_diff = computePriceDiff 450 (some 500) := rfl
  rw [h]
  norm_num [computePriceDiff]

/-- C5: every record in the output whose cabin is not the exempt BUSINESS
cabin has price at most `MAX_PRICE_FILTER`, and the price-ceiling drop
condition is unsatisfiable for BUSINESS-cabin records at any price — the
ceiling never removes them. -/
theorem C5_price_ceiling {hist : Hist} {date : String} {offers : List RawOffer}
    {out : List FlightRecord} (h : fetchFlightsForDate hist date offers = .ok out) :
    (∀ r ∈ out, r.cabin ≠ "BUSINESS" → r.price ≤ MAX_PRICE_FILTER) ∧
      ∀ price : ℚ, ¬priceFilterDrops "BUSINESS" price := by
  obtain ⟨rs, seenF, hp, hout⟩ := fetchFlightsForDate_ok h
  refine ⟨?_, ?_⟩
  · intro r hr hcab
    rw [hout] at hr
    obtain ⟨l1, o, l2, -, -, -, hro, -⟩ :=
      processOffers_first_eligible hp r (mem_sortByPrice.mp hr)
    have hnd := (recordOf_spec hro).2.1
    unfold priceFilterDrops at hnd
    rcases not_and_or.mp hnd with h1 | h2
    · exact absurd (not_not.mp h1) hcab
    · exact le_of_not_lt h2
  · intro price
    unfold priceFilterDrops
    simp

/-- C5, witness: a batch with a cheap economy offer and a JQ business offer at
2000, far above the 700 ceiling; the business record is retained. -/
theorem C5_price_ceiling_witness :
    ((∀ r ∈ [recGood, recBizJQ], r.cabin ≠ "BUSINESS" → r.price ≤ MAX_PRICE_FILTER) ∧
        ∀ price : ℚ, ¬priceFilterDrops "BUSINESS" price) ∧
      recBizJQ.cabin = "BUSINESS" ∧ recBizJQ.price = 2000 ∧ MAX_PRICE_FILTER < 2000 :=
  ⟨C5_price_ceiling
      (show fetchFlightsForDate histNone d0 [oGood, oBizJQ] = .ok [recGood, recBizJQ] from rfl),
    rfl, rfl, by norm_num [MAX_PRICE_FILTER]⟩

/-- C7: the LOW_SEATS condition of the formatter fires exactly when
`seats ≤ MIN_SEATS_ALERT`; the boundary is inclusive (3 ≤ 3 fires, 4 does
not), a record with `seats = 0` (the provider's unknown value) fires it, an
offer with no `numberOfBookableSeats` key yields `seats = 0`, and the badge
shows up in the per-flight alert indicator string. -/
theorem C7_low_seats :
    (∀ f : FlightRecord, lowSeatsFires f = true ↔ f.seats ≤ MIN_SEATS_ALERT) ∧
      lowSeatsFires { rSample with seats := 3 } = true ∧
      lowSeatsFires { rSample with seats := 4 } = false ∧
      lowSeatsFires { rSample with seats := 0 } = true ∧
      (recordOf histNone d0 oNoSeats).map (fun r => r.seats) = some 0 ∧
      alertIndicator { rSample with seats := 0 } = "💰 PRICE ALERT 💺 LOW SEATS " := by
  refine ⟨?_, rfl, rfl, rfl, rfl, rfl⟩
  intro f
  simp [lowSeatsFires]

/-- C10: a stored prior price of exactly 0 is truthiness-tested like a missing
prior: `computePriceDiff` gives 0 in both cases, and the concrete record built
under an all-zero history has `prev_price = some 0` (a prior row exists) yet
`price_diff = 0` and an empty trend indicator. -/
theorem C10_zero_prior :
    (∀ price : ℚ, computePriceDiff price (some 0) = 0 ∧
        computePriceDiff price (some 0) = computePriceDiff price none) ∧
      recordOf histZero d0 oMid = some recMidZero ∧
      recMidZero.prev_price = some 0 ∧
      recMidZero.price_diff = 0 ∧
      trendIndicator recMidZero = "" := by
  refine ⟨?_, rfl, rfl, rfl, rfl⟩
  intro price
  constructor <;> simp [computePriceDiff]

/-- C1, counterexample: the claim says the surviving record for a
`(flight_number, cabin)` key is the first offer with that key in input order.
Input: a BUSINESS offer with a missing `carrierCode` (defaulted to `""`) and
segment number `"JQ9"`, followed by a JQ BUSINESS offer with number `"9"`.
Both have key `("JQ9", "BUSINESS")`, but the first is dropped by the
eligibility rule before reaching the dedup set, so the record that survives is
built from the *second* offer (price 2000, not the first offer's 3000). -/
theorem C1_counterexample :
    offerPairKey? oBizNoCarrier = some ("JQ9", "BUSINESS") ∧
      offerPairKey? oBizJQ = some ("JQ9", "BUSINESS") ∧
      offerPrice? oBizNoCarrier = some 3000 ∧
      fetchFlightsForDate histNone d0 [oBizNoCarrier, oBizJQ] = .ok [recBizJQ] ∧
      recBizJQ.flight_number = "JQ9" ∧ recBizJQ.cabin = "BUSINESS" ∧
      recBizJQ.price = 2000 ∧ (2000 : ℚ) ≠ 3000 :=
  ⟨rfl, rfl, rfl, rfl, rfl, rfl, rfl, by norm_num⟩

/-- C1, amended: the output contains at most one record per
`(flight_number, cabin)` key, and every record in the output is built from the
first *eligible* offer (carrier JQ, or cabin not BUSINESS) with that key in
input order; later eligible offers with the same key are dropped, not merged
and not compared for a better price. -/
theorem C1_dedup_first_eligible {hist : Hist} {date : String}
    {offers : List RawOffer} {out : List FlightRecord}
    (h : fetchFlightsForDate hist date offers = .ok out) :
    out.Pairwise (fun a b => (a.flight_number, a.cabin) ≠ (b.flight_number, b.cabin)) ∧
      ∀ r ∈ out, ∃ l1 o l2, offers = l1 ++ o :: l2 ∧
        offerEligible o = true ∧
        offerPairKey? o = some (r.flight_number, r.cabin) ∧
        recordOf hist date o = some r ∧
        ∀ o' ∈ l1,
          ¬(offerEligible o' = true ∧ offerPairKey? o' = some (r.flight_number, r.cabin)) := by
  obtain ⟨rs, seenF, hp, hout⟩ := fetchFlightsForDate_ok h
  refine ⟨?_, ?_⟩
  · have hpw := processOffers_pairwise_keys hp
    have hpw2 : rs.Pairwise
        (fun a b => (a.flight_number, a.cabin) ≠ (b.flight_number, b.cabin)) := by
      refine hpw.imp ?_
      intro a b hne heq
      apply hne
      simp only [Prod.mk.injEq] at heq
      unfold recordKey
      rw [heq.1, heq.2]
    have hperm : List.Perm (sortByPrice rs) rs := List.perm_insertionSort byPriceLE rs
    rw [hout]
    exact (hperm.pairwise_iff (by intro x y hxy; exact hxy.symm)).mpr hpw2
  · intro r hr
    rw [hout] at hr
    exact processOffers_first_eligible hp r (mem_sortByPrice.mp hr)

/-- C1, witness for the amended claim: in the two-offer batch of the
counterexample the surviving record is traced to `oBizJQ`, the first
*eligible* offer with its key (the ineligible `oBizNoCarrier` before it does
not count). -/
theorem C1_dedup_first_eligible_witness :
    [recBizJQ].Pairwise
        (fun a b => (a.flight_number, a.cabin) ≠ (b.flight_number, b.cabin)) ∧
      ∀ r ∈ [recBizJQ], ∃ l1 o l2,
        ([oBizNoCarrier, oBizJQ] : List RawOffer) = l1 ++ o :: l2 ∧
        offerEligible o = true ∧
        offerPairKey? o = some (r.flight_number, r.cabin) ∧
        recordOf histNone d0 o = some r ∧
        ∀ o' ∈ l1,
          ¬(offerEligible o' = true ∧ offerPairKey? o' = some (r.flight_number, r.cabin)) :=
  C1_dedup_first_eligible
    (show fetchFlightsForDate histNone d0 [oBizNoCarrier, oBizJQ] = .ok [recBizJQ] from rfl)

/-- C6: the output is sorted ascending by price — every adjacent pair is
non-decreasing — and the sort is stable: for every price value, the records
with that price appear in the output in exactly their pre-sort (first-seen)
order. -/
theorem C6_sorted_stable {hist : Hist} {date : String} {offers : List RawOffer}
    {rs : List FlightRecord} {seenF : List String} {out : List FlightRecord}
    (hp : processOffers hist date offers [] = .ok (rs, seenF))
    (h : fetchFlightsForDate hist date offers = .ok out) :
    List.Chain' (fun a b => a.price ≤ b.price) out ∧
      ∀ c : ℚ, out.filter (fun r => decide (r.price = c)) =
        rs.filter (fun r => decide (r.price = c)) := by
  obtain ⟨rs', seenF', hp', hout⟩ := fetchFlightsForDate_ok h
  rw [hp] at hp'
  simp only [Except.ok.injEq, Prod.mk.injEq] at hp'
  obtain ⟨h1, h2⟩ := hp'
  subst h1
  refine ⟨?_, ?_⟩
  · rw [hout]
    exact (List.sorted_insertionSort byPriceLE rs).chain'
  · intro c
    rw [hout]
    refine sortByPrice_filter_eq rs (fun r => decide (r.price = c)) ?_
    intro a b ha hb
    rw [decide_eq_true_eq] at ha hb
    unfold byPriceLE
    rw [ha, hb]

/-- C6, witness: a four-offer batch containing two distinct records tied at
price 450; the output is chained non-decreasing and the tied records keep
their first-seen order. -/
theorem C6_sorted_stable_witness :
    List.Chain' (fun a b => a.price ≤ b.price) [recGood, recMid, recMid2, recBizJQ] ∧
      List.filter (fun r => decide (r.price = (450 : ℚ)))
          [recGood, recMid, recMid2, recBizJQ] =
        List.filter (fun r => decide (r.price = (450 : ℚ)))
          [recGood, recMid, recMid2, recBizJQ] :=
  ⟨(C6_sorted_stable
      (show processOffers histNone d0 [oGood, oMid, oMid2, oBizJQ] [] =
          .ok ([recGood, recMid, recMid2, recBizJQ],
            ["JQ9_BUSINESS", "QF36_ECONOMY", "TH168_ECONOMY", "TR33_ECONOMY"]) from rfl)
      (show fetchFlightsForDate histNone d0 [oGood, oMid, oMid2, oBizJQ] =
          .ok [recGood, recMid, recMid2, recBizJQ] from rfl)).1,
    (C6_sorted_stable
      (show processOffers histNone d0 [oGood, oMid, oMid2, oBizJQ] [] =
          .ok ([recGood, recMid, recMid2, recBizJQ],
            ["JQ9_BUSINESS", "QF36_ECONOMY", "TH168_ECONOMY", "TR33_ECONOMY"]) from rfl)
      (show fetchFlightsForDate histNone d0 [oGood, oMid, oMid2, oBizJQ] =
          .ok [recGood, recMid, recMid2, recBizJQ] from rfl)).2 450⟩

/-- C8: the formatter maps an empty record sequence to the fixed
`noFlightsBlock`, which is a non-empty explanatory string; the
`alerts_triggered` list is empty for an empty sequence; and an empty (or
fully filtered) batch is not an error anywhere in the pipeline — it yields
`.ok []`. -/
theorem C8_no_flights :
    (∀ date : String, ∀ pa : PriceAnalysis,
        formatDateSummary date [] pa = noFlightsBlock date) ∧
      (∀ date : String, 0 < (noFlightsBlock date).length) ∧
      alertsTriggered [] = [] ∧
      (∀ hist : Hist, ∀ date : String, fetchFlightsForDate hist date [] = .ok []) ∧
      fetchFlightsForDate histNone d0 [oOver] = .ok [] := by
  refine ⟨?_, ?_, rfl, ?_, rfl⟩
  · intro date pa
    simp [formatDateSummary]
  · intro date
    have h1 : 0 < "
".length := by decide
    simp [noFlightsBlock, String.length_append]
    tauto
  · intro hist date
    rfl

/-- C9: the dedup key is consumed before the price-ceiling check.  If the
first offer with a `(flight_number, cabin)` key is a non-BUSINESS offer whose
price exceeds the ceiling, it registers the key and is dropped, and no record
with that key appears in the output — even when a later offer with the same
key would have passed every filter. -/
theorem C9_dedup_before_ceiling {hist : Hist} {date : String}
    {l1 l2 : List RawOffer} {o : RawOffer} {out : List FlightRecord}
    {fn cb : String} {p : ℚ}
    (h : fetchFlightsForDate hist date (l1 ++ o :: l2) = .ok out)
    (hk : offerPairKey? o = some (fn, cb))
    (hfirst : ∀ o' ∈ l1, offerPairKey? o' ≠ some (fn, cb))
    (hcab : cb ≠ "BUSINESS")
    (hprice : offerPrice? o = some p)
    (hover : MAX_PRICE_FILTER < p) :
    ∀ r ∈ out, (r.flight_number, r.cabin) ≠ (fn, cb) := by
  obtain ⟨rs, seenF, hp, hout⟩ := fetchFlightsForDate_ok h
  have hsub : ∀ r ∈ rs, (r.flight_number, r.cabin) ≠ (fn, cb) := by
    obtain ⟨out1, s1, out2, h1, h2, h3⟩ := processOffers_append hp
    obtain ⟨p', seen', rs2, hstep, hrec2, hout2⟩ := processOffers_cons_ok h2
    have hnone : recordOf hist date o = none :=
      recordOf_priceDropped hk hcab hprice hover
    cases p' with
    | some r0 =>
      have hro := (stepOffer_ok_some hstep).2.2.1
      rw [hnone] at hro
      exact absurd hro (by simp)
    | none =>
      rw [h3, hout2]
      intro r hr heq
      rcases List.mem_append.mp hr with hr1 | hr2
      · obtain ⟨o', ho', hk'⟩ := processOffers_record_keys h1 r hr1
        rw [heq] at hk'
        exact hfirst o' ho' hk'
      · have he : offerEligible o = true := offerEligible_of_nonbusiness hk hcab
        have hks : offerKey? o = some (fn ++ "_" ++ cb) := by
          simp [offerKey?, hk]
        have hmem := stepOffer_adds_key he hks hstep
        have hblocked := processOffers_blocked hrec2 hmem r hr2
        apply hblocked
        have hfn : r.flight_number = fn := congrArg Prod.fst heq
        have hcb2 : r.cabin = cb := congrArg Prod.snd heq
        unfold recordKey
        rw [hfn, hcb2]
  intro r hr
  rw [hout] at hr
  exact hsub r (mem_sortByPrice.mp hr)

/-- C9, witness: `oOver` (SQ44 economy at 800, over the 700 ceiling) followed
by `oUnder` (same key, 650, within the ceiling) produces an empty output —
the key is omitted although `oUnder` alone passes every filter. -/
theorem C9_dedup_before_ceiling_witness :
    (∀ r ∈ ([] : List FlightRecord), (r.flight_number, r.cabin) ≠ ("SQ44", "ECONOMY")) ∧
      fetchFlightsForDate histNone d0 [oOver, oUnder] = .ok [] ∧
      fetchFlightsForDate histNone d0 [oUnder] = .ok [recUnder] ∧
      recUnder.flight_number = "SQ44" ∧ recUnder.cabin = "ECONOMY" :=
  ⟨@C9_dedup_before_ceiling histNone d0 [] [oUnder] oOver [] "SQ44" "ECONOMY" 800
      (show fetchFlightsForDate histNone d0 ([] ++ oOver :: [oUnder]) = .ok [] from rfl)
      rfl (by simp) (by decide) rfl (by norm_num [MAX_PRICE_FILTER]),
    rfl, rfl, rfl, rfl⟩

end FlightMonitor
